import Mathlib

/-!
# Verification of the AIRobot tool-calling orchestration core

Shallow embedding of the ReAct session loop and its collaborators:

* `core/types.py` — `Error`, `Result`, `ToolCall`, `AgentMessage`
* `modes/llm_mode.py` — `LLMMode._clean_text_for_tts`, `LLMMode._run_agent_loop`
* `agents/agent.py` — `LLMAgent._get_tool_definitions` (action catalog builder)
  and the reply-decoding tail of `LLMAgent.run`
* `skills/executor.py` — `SkillExecutor._build_skill_map`, `execute_tool_call`
* `tools/robot_tools.py` — `RobotTools.set_servo_angle` and the method table
  that the catalog builder introspects

Python dynamic values are modelled by `PyValue`; the async fan-out
(`asyncio.gather`) is modelled by an order-preserving map, which is exactly
the ordering guarantee `gather` provides (results are returned in the order
of the awaitables, not completion order).  The external collaborators
(inference backend, robot driver, kinematics, servo hardware) are modelled
as universally quantified oracles, mirroring the interfaces `IAgent`,
`ISkillExecutor`, `IServo` through which the core calls them.
-/

namespace AIRobot

/-- A Python/JSON value as it occurs in tool arguments and tool results.
Floating-point literals are not modelled: no argument or payload examined
by the verified properties carries a float. -/
inductive PyValue where
  | vnull : PyValue
  | vbool : Bool → PyValue
  | vint : Int → PyValue
  | vstr : String → PyValue
  | vlist : List PyValue → PyValue
  | vdict : List (String × PyValue) → PyValue
deriving Repr

/-- `dataclass Error` from `core/types.py`: an error code plus message. -/
structure Error where
  code : String
  message : String
deriving Repr, DecidableEq

/-- `dataclass Result` from `core/types.py`: the `Ok(data)` / `Err(code, message)`
envelope.  The Python class stores `ok : bool` with optional `data`/`error`
fields; every constructor used in the program goes through `Result.ok` or
`Result.err`, which this tagged union captures. -/
inductive Result (α : Type) where
  | ok : α → Result α
  | err : Error → Result α
deriving Repr

/-- `dataclass ToolCall` from `core/types.py`: one action invocation
(`id`, `name`, decoded `args` mapping). -/
structure ToolCall where
  id : String
  name : String
  args : List (String × PyValue)
deriving Repr

/-- `dataclass AgentMessage` from `core/types.py`.  `thought` and `name`
exist in the source but are never read by the session loop. -/
structure AgentMessage where
  role : String
  content : Option String := none
  thought : Option String := none
  tool_calls : Option (List ToolCall) := none
  tool_call_id : Option String := none
  name : Option String := none
deriving Repr

/-- Python `dict.get` on a key list decoded from JSON (later bindings win,
as in a Python dict built by repeated assignment). -/
def dictGet (l : List (String × PyValue)) (k : String) : Option PyValue :=
  l.reverse.lookup k

/-! ## JSON serialization (`json.dumps`) used when rendering tool results -/

/-- Escape one character for a JSON string literal.  `json.dumps` also
escapes other control characters and (by default) non-ASCII code points;
no verified property inspects a serialized payload, so only the common
escapes are spelled out. -/
def jsonEscapeChar (c : Char) : String :=
  if c = '"' then "\\\""
  else if c = '\\' then "\\\\"
  else if c = '\n' then "\\n"
  else if c = '\t' then "\\t"
  else if c = '\r' then "\\r"
  else String.singleton c

def jsonEscape (s : String) : String :=
  String.join (s.toList.map jsonEscapeChar)

def jsonQuote (s : String) : String :=
  "\"" ++ jsonEscape s ++ "\""

mutual
/-- `json.dumps(v)` with the default separators. -/
def jsonDumps : PyValue → String
  | .vnull => "null"
  | .vbool b => if b then "true" else "false"
  | .vint i => toString i
  | .vstr s => jsonQuote s
  | .vlist xs => "[" ++ jsonDumpsList xs ++ "]"
  | .vdict fs => "\x7b" ++ jsonDumpsFields fs ++ "\x7d"

def jsonDumpsList : List PyValue → String
  | [] => ""
  | [x] => jsonDumps x
  | x :: xs => jsonDumps x ++ ", " ++ jsonDumpsList xs

def jsonDumpsFields : List (String × PyValue) → String
  | [] => ""
  | [(k, v)] => jsonQuote k ++ ": " ++ jsonDumps v
  | (k, v) :: fs => jsonQuote k ++ ": " ++ jsonDumps v ++ ", " ++ jsonDumpsFields fs
end

/-- Two spaces of indentation per level (for `json.dumps(..., indent=2)`). -/
def pad (d : Nat) : String := String.join (List.replicate d "  ")

mutual
/-- `json.dumps(v, indent=2)` at nesting depth `d` (body of a container). -/
def jsonDumpsI (d : Nat) : PyValue → String
  | .vnull => "null"
  | .vbool b => if b then "true" else "false"
  | .vint i => toString i
  | .vstr s => jsonQuote s
  | .vlist [] => "[]"
  | .vlist xs =>
      "[\n" ++ jsonDumpsIList (d + 1) xs ++ "\n" ++ pad d ++ "]"
  | .vdict [] => "\x7b\x7d"
  | .vdict fs =>
      "\x7b\n" ++ jsonDumpsIFields (d + 1) fs ++ "\n" ++ pad d ++ "\x7d"

def jsonDumpsIList (d : Nat) : List PyValue → String
  | [] => ""
  | [x] => pad d ++ jsonDumpsI d x
  | x :: xs => pad d ++ jsonDumpsI d x ++ ",\n" ++ jsonDumpsIList d xs

def jsonDumpsIFields (d : Nat) : List (String × PyValue) → String
  | [] => ""
  | [(k, v)] => pad d ++ jsonQuote k ++ ": " ++ jsonDumpsI d v
  | (k, v) :: fs =>
      pad d ++ jsonQuote k ++ ": " ++ jsonDumpsI d v ++ ",\n" ++
        jsonDumpsIFields d fs
end

mutual
/-- Python `repr` of a value (used inside `str` of containers). -/
def pyRepr : PyValue → String
  | .vnull => "None"
  | .vbool b => if b then "True" else "False"
  | .vint i => toString i
  | .vstr s => "\x27" ++ s ++ "\x27"
  | .vlist xs => "[" ++ pyReprList xs ++ "]"
  | .vdict fs => "\x7b" ++ pyReprFields fs ++ "\x7d"

def pyReprList : List PyValue → String
  | [] => ""
  | [x] => pyRepr x
  | x :: xs => pyRepr x ++ ", " ++ pyReprList xs

def pyReprFields : List (String × PyValue) → String
  | [] => ""
  | [(k, v)] => "\x27" ++ k ++ "\x27: " ++ pyRepr v
  | (k, v) :: fs => "\x27" ++ k ++ "\x27: " ++ pyRepr v ++ ", " ++ pyReprFields fs
end

/-- Python `str(v)`: identity on strings, `repr` otherwise. -/
def pyStr : PyValue → String
  | .vstr s => s
  | v => pyRepr v

/-- Python `int(v)` as used by `RobotTools.set_servo_angle`, returning
`none` where the Python call raises `ValueError`/`TypeError`.  (`int` of a
`str` in Python also tolerates surrounding whitespace and underscores;
no verified property depends on those corners.) -/
def pyIntOf : PyValue → Option Int
  | .vint i => some i
  | .vbool b => some (if b then 1 else 0)
  | .vstr s => s.toInt?
  | _ => none

/-! ## `LLMMode._clean_text_for_tts` (`modes/llm_mode.py:43-48`) -/

/-- The characters matched by the regex class `\s` on the inputs the system
produces (ASCII whitespace; the Unicode-only whitespace code points are not
produced by any text path examined here). -/
def isPySpaceChar (c : Char) : Bool :=
  c = ' ' || c = '\t' || c = '\n' || c = '\r' || c = '\x0b' || c = '\x0c'

/-- Characters kept by the regex `[^a-zA-Zа-яА-Я0-9\s.,!?-]` substitution:
Latin letters, Cyrillic letters (`а-я` = U+0430..U+044F, `А-Я` =
U+0410..U+042F), digits, whitespace and the punctuation `.,!?-`. -/
def isAllowedTTSChar (c : Char) : Bool :=
  let n := c.toNat
  decide (97 ≤ n ∧ n ≤ 122) || decide (65 ≤ n ∧ n ≤ 90) ||
  decide (0x430 ≤ n ∧ n ≤ 0x44F) || decide (0x410 ≤ n ∧ n ≤ 0x42F) ||
  decide (48 ≤ n ∧ n ≤ 57) || isPySpaceChar c ||
  c = '.' || c = ',' || c = '!' || c = '?' || c = '-'

/-- Python `str.strip()` restricted to the whitespace actually produced. -/
def pyStrip (s : String) : String :=
  String.mk (((s.toList.dropWhile isPySpaceChar).reverse.dropWhile
    isPySpaceChar).reverse)

/-- `LLMMode._clean_text_for_tts`: drop every character outside the allowed
class, then strip surrounding whitespace. -/
def cleanTextForTTS (text : String) : String :=
  pyStrip (String.mk (text.toList.filter isAllowedTTSChar))

/-! ## `RobotTools.set_servo_angle` (`tools/robot_tools.py:102-120`)

The servo hardware (`IServo.set_angle`, reached through
`RobotTools.run_in_executor`) is an external collaborator: it is modelled
as an oracle `servo : Int → α → Bool × α` over an abstract hardware state
`α`; commanding the servo is exactly one application of this oracle. -/

/-- The JSON-serializable payload a tool returns: either an object carrying
a `to_dict` method (the dataclasses `Joints`/`Pose`/`RobotState`), rendered
with `json.dumps(x.to_dict(), indent=2)`, or a plain value rendered with
`json.dumps(x)` (`modes/llm_mode.py:100-106`). -/
inductive ToolData where
  | obj : List (String × PyValue) → ToolData
  | plain : PyValue → ToolData
deriving Repr

/-- `RobotTools.set_servo_angle(angle)`: coerce with `int(...)`, reject out
of range `0..180` before touching the servo, then command the servo once
and report success or `servo_error`. -/
def set_servo_angle {α : Type} (servo : Int → α → Bool × α)
    (angle : PyValue) (w : α) : Result ToolData × α :=
  match pyIntOf angle with
  | none =>
      (.err ⟨"invalid_angle",
        "Angle must be a valid integer, but got \x27" ++ pyStr angle ++ "\x27."⟩, w)
  | some a =>
      if 0 ≤ a ∧ a ≤ 180 then
        let r := servo a w
        if r.1 then (.ok (.plain (.vdict [("status", .vstr "done")])), r.2)
        else (.err ⟨"servo_error", "Failed to set servo angle."⟩, r.2)
      else
        (.err ⟨"invalid_angle", "Angle must be between 0 and 180."⟩, w)

/-- `MockServo.set_angle` (`drivers/servo_driver.py:76-84`): succeeds exactly
on angles in range, touches no state. -/
def mockServoSetAngle (a : Int) (w : Unit) : Bool × Unit :=
  (decide (0 ≤ a ∧ a ≤ 180), w)

/-! ## `SkillExecutor` (`skills/executor.py`) -/

/-- One entry of the skill map: a named operation taking the decoded
keyword arguments and the collaborator state. -/
def Skill (α : Type) : Type := List (String × PyValue) → α → Result ToolData × α

/-- The skills that forward directly to the robot driver / kinematics /
safety collaborators (external per the spec, §1): their behaviour is left
abstract and quantified in every theorem that uses the map. -/
structure OtherSkills (α : Type) where
  get_tcp_pose : Skill α
  get_joint_positions : Skill α
  get_state : Skill α
  move_p2p : Skill α
  set_gripper : Skill α
  stop : Skill α
  run_fk : Skill α
  run_ik : Skill α

/-- Keyword-argument binding for `set_servo_angle(angle)`: the Python call
`skill_func(**args)` raises `TypeError` — caught and converted to
`invalid_params` by `execute_tool_call` — unless `args` is exactly
`{"angle": v}`.  (The interpreter-generated detail text of the `TypeError`
is abstracted to a fixed phrase; no verified property reads it.) -/
def bindSetServoAngle {α : Type} (servo : Int → α → Bool × α) : Skill α :=
  fun args w =>
    match args with
    | [("angle", v)] => set_servo_angle servo v w
    | _ =>
        (.err ⟨"invalid_params",
          "Invalid parameters for tool \x27set_servo_angle\x27: bad arguments"⟩, w)

/-- `SkillExecutor._build_skill_map` (`skills/executor.py:32-45`), in source
order.  All entries except `set_servo_angle` forward to external
collaborators. -/
def buildSkillMap {α : Type} (o : OtherSkills α)
    (servo : Int → α → Bool × α) : List (String × Skill α) :=
  [("get_tcp_pose", o.get_tcp_pose),
   ("get_joint_positions", o.get_joint_positions),
   ("get_state", o.get_state),
   ("move_p2p_pose", o.move_p2p),
   ("move_p2p_joints", o.move_p2p),
   ("set_gripper", o.set_gripper),
   ("stop", o.stop),
   ("run_fk", o.run_fk),
   ("run_ik", o.run_ik),
   ("set_servo_angle", bindSetServoAngle servo)]

/-- `SkillExecutor.execute_tool_call` (`skills/executor.py:47-68`): resolve
by exact name, unknown name gives `tool_not_found` without invoking
anything; otherwise call the skill (whose binding wrapper accounts for the
`TypeError`/`Exception` handlers). -/
def executeToolCall {α : Type} (skillMap : List (String × Skill α))
    (tc : ToolCall) (w : α) : Result ToolData × α :=
  match skillMap.lookup tc.name with
  | none => (.err ⟨"tool_not_found", "Unknown tool: \x27" ++ tc.name ++ "\x27"⟩, w)
  | some f => f tc.args w

/-! ## The session loop `LLMMode._run_agent_loop` (`modes/llm_mode.py:50-123`)

The loop is modelled as a state machine over `LoopState` together with a
trace of externally visible effects (`Event`): each call of
`voice_out.speak` and each tool dispatched to the skill executor.  The
inference backend is an oracle: one step consumes one `Result AgentMessage`
from a script, exactly as the repository tests drive the loop through
`FakeAgent`.  `asyncio.gather` returns results in the order of its
arguments, so the concurrent fan-out/fan-in is an order-preserving map. -/

/-- One externally visible effect of the session loop. -/
inductive Event where
  | spoke : PyValue → Event
  | execTC : ToolCall → Event
deriving Repr

/-- The mutable state of `LLMMode` that `_run_agent_loop` touches. -/
structure LoopState where
  history : List AgentMessage
  retries_left : Nat
  is_running : Bool
deriving Repr

/-- Outcome of one iteration of the `while` body: `ret` leaves the loop
(the method returns), `cont` proceeds to the next iteration. -/
inductive StepRes where
  | ret : LoopState → List Event → StepRes
  | cont : LoopState → List Event → StepRes
deriving Repr

/-- What a gathered task yields: the skill result, or — via
`return_exceptions=True` — an exception object. -/
inductive ExecOutcome where
  | res : Result ToolData → ExecOutcome
  | exn : String → ExecOutcome
deriving Repr

/-- Python truthiness of the optional `content` string. -/
def isTruthyStr : Option String → Bool
  | some s => s ≠ ""
  | none => false

def errNotice (msg : String) : String := "Ошибка агента: " ++ msg

def protocolNotice : String :=
  "Агент не вернул ни ответа, ни команды. Завершаю задачу."

def defaultShutdownReason : String := "Завершаю работу по команде."

def retryFailNotice : String :=
  "Не удалось выполнить команду после нескольких попыток."

/-- Did this gathered outcome set `has_errors` (`modes/llm_mode.py:96-109`)? -/
def hasErr : ExecOutcome → Bool
  | .exn _ => true
  | .res (.err _) => true
  | .res (.ok _) => false

/-- The `content` string of the tool-result message appended for one
outcome (`modes/llm_mode.py:95-108`). -/
def toolResultContent : ExecOutcome → String
  | .exn t => "Error executing tool: " ++ t
  | .res (.ok (.obj d)) => jsonDumpsI 0 (.vdict d)
  | .res (.ok (.plain v)) => jsonDumps v
  | .res (.err e) => "Error: " ++ e.message

/-- The tool-result message appended for invocation `tc` with outcome `o`
(`modes/llm_mode.py:111`). -/
def toolResultMsg (tc : ToolCall) (o : ExecOutcome) : AgentMessage :=
  { role := "tool", content := some (toolResultContent o),
    tool_call_id := some tc.id }

/-- One iteration of the `while retries_left > 0` body of
`LLMMode._run_agent_loop`, given the inference result `resp` for the
current history.  Follows `modes/llm_mode.py:56-119` line by line:
agent error → speak and clear history and return; final text → speak the
sanitized text and return; neither text nor calls → speak the protocol
notice and return; a `shutdown` call anywhere in the batch → speak its
`reason` (or the default) and stop the mode and return, dispatching
nothing; otherwise dispatch the whole batch, append one tool-result per
invocation in batch order, and decrement the retry budget when any outcome
failed, speaking the retry-exhaustion notice when it hits zero. -/
def stepOnce (exec : ToolCall → ExecOutcome) (resp : Result AgentMessage)
    (s : LoopState) : StepRes :=
  match resp with
  | .err e =>
      .ret { s with history := [] } [.spoke (.vstr (errNotice e.message))]
  | .ok m =>
      let s1 : LoopState := { s with history := s.history ++ [m] }
      if isTruthyStr m.content then
        .ret s1 [.spoke (.vstr (cleanTextForTTS (m.content.getD "")))]
      else
        let tcs := m.tool_calls.getD []
        if tcs.isEmpty then
          .ret s1 [.spoke (.vstr protocolNotice)]
        else
          match tcs.find? (fun tc => tc.name = "shutdown") with
          | some tc =>
              .ret { s1 with is_running := false }
                [.spoke ((dictGet tc.args "reason").getD
                  (.vstr defaultShutdownReason))]
          | none =>
              let outs := tcs.map exec
              let resultMsgs := List.zipWith toolResultMsg tcs outs
              let s2 : LoopState := { s1 with history := s1.history ++ resultMsgs }
              if outs.any hasErr then
                let s3 : LoopState := { s2 with retries_left := s2.retries_left - 1 }
                .cont s3 ((tcs.map Event.execTC) ++
                  (if s3.retries_left = 0 then [.spoke (.vstr retryFailNotice)]
                   else []))
              else
                .cont s2 (tcs.map Event.execTC)

/-- The `while retries_left > 0` loop, consuming one scripted inference
result per iteration.  An exhausted script models the external agent
supplying no further replies (the repository tests drive the loop the same
way through `FakeAgent.responses`). -/
def runLoop (exec : ToolCall → ExecOutcome) :
    List (Result AgentMessage) → LoopState → LoopState × List Event
  | [], s => (s, [])
  | r :: rest, s =>
      if s.retries_left = 0 then (s, [])
      else
        match stepOnce exec r s with
        | .ret s2 evs => (s2, evs)
        | .cont s2 evs =>
            let p := runLoop exec rest s2
            (p.1, evs ++ p.2)

/-- The user message appended on entry to `_run_agent_loop`
(`modes/llm_mode.py:52`). -/
def userMsg (text : String) : AgentMessage :=
  { role := "user", content := some text }

/-- `LLMMode._run_agent_loop(initial_request)`: append the user message,
reset the retry budget to `max_retries`, and run the loop. -/
def runAgentLoop (exec : ToolCall → ExecOutcome)
    (script : List (Result AgentMessage)) (history0 : List AgentMessage)
    (max_retries : Nat) (initial_request : String) (running0 : Bool) :
    LoopState × List Event :=
  runLoop exec script
    { history := history0 ++ [userMsg initial_request],
      retries_left := max_retries, is_running := running0 }

/-- The number of loop iterations that decremented the retry budget
(`has_errors` iterations), along the same script and state as `runLoop`. -/
def errSteps (exec : ToolCall → ExecOutcome) :
    List (Result AgentMessage) → LoopState → Nat
  | [], _ => 0
  | r :: rest, s =>
      if s.retries_left = 0 then 0
      else
        match stepOnce exec r s with
        | .ret _ _ => 0
        | .cont s2 _ =>
            (if s2.retries_left < s.retries_left then 1 else 0) +
              errSteps exec rest s2

/-! ## Decoding an inference reply: tail of `LLMAgent.run`
(`agents/agent.py:142-155`) -/

/-- The `function` object of one raw tool call in the backend reply. -/
structure RawFunction where
  name : String
  arguments : String
deriving Repr

/-- One element of `choices[0].message.tool_calls` in the backend reply. -/
structure RawToolCall where
  id : String
  function : RawFunction
deriving Repr

/-- `choices[0].message` of a structurally valid backend reply. -/
structure ResponseMessage where
  content : Option String := none
  tool_calls : Option (List RawToolCall) := none
deriving Repr

/-- Decoding one raw tool call (`agents/agent.py:145-151`): an empty
arguments string yields `{}`; a malformed one (parser returns `none`)
degrades to `{}` with a warning rather than failing.  `parseArgs` is the
oracle for `json.loads` on the encoded-arguments string. -/
def decodeToolCall (parseArgs : String → Option (List (String × PyValue)))
    (rtc : RawToolCall) : ToolCall :=
  { id := rtc.id, name := rtc.function.name,
    args :=
      if rtc.function.arguments = "" then []
      else (parseArgs rtc.function.arguments).getD [] }

/-- The decode branch of `LLMAgent.run` (`agents/agent.py:142-155`): a reply
whose message carries a non-empty `tool_calls` list becomes an assistant
message with `content = ""` (the empty string, not absent) and the decoded
calls; otherwise the reply text (possibly absent) is the final answer. -/
def decodeResponse (parseArgs : String → Option (List (String × PyValue)))
    (rm : ResponseMessage) : Result AgentMessage :=
  match rm.tool_calls with
  | some tcs =>
      if tcs.isEmpty then
        .ok { role := "assistant", content := rm.content }
      else
        .ok { role := "assistant", content := some "",
              tool_calls := some (tcs.map (decodeToolCall parseArgs)) }
  | none => .ok { role := "assistant", content := rm.content }

/-! ## The action catalog builder `LLMAgent._get_tool_definitions`
(`agents/agent.py:35-90`)

`inspect.getmembers(self.robot_tools, predicate=inspect.iscoroutinefunction)`
collects the coroutine members of the tools object and returns them sorted
by name; the builder then skips names starting with an underscore and maps
the rest to JSON-schema tool definitions.  A member is modelled by what
introspection sees: its name, whether it is a coroutine function, its
cleaned docstring (`inspect.getdoc`), and its bound-signature parameters.
Because `tools/robot_tools.py` has `from __future__ import annotations`,
every annotation inspected is already a string, so `str(param.annotation)`
is the annotation source text itself. -/

/-- One parameter as seen through `inspect.signature` on a bound method:
`annotation = none` models `inspect.Parameter.empty`; `hasDefault = false`
models `param.default is inspect.Parameter.empty`. -/
structure PyParam where
  name : String
  annotation : Option String
  hasDefault : Bool
deriving Repr, DecidableEq

/-- One member of the tools object as seen through `inspect.getmembers`. -/
structure PyMethod where
  name : String
  isCoroutine : Bool
  doc : Option String
  params : List PyParam
deriving Repr, DecidableEq

/-- One property of the generated JSON schema. -/
structure ToolParam where
  name : String
  type : String
  description : String
deriving Repr, DecidableEq

/-- One generated tool definition (the `function` object of the schema). -/
structure ToolDef where
  name : String
  description : String
  properties : List ToolParam
  required : List String
deriving Repr, DecidableEq

/-- Split a character list at every occurrence of `sep` (Python
`str.split(sep)` at the character level). -/
def splitOnChar (sep : Char) : List Char → List (List Char)
  | [] => [[]]
  | c :: cs =>
      match splitOnChar sep cs with
      | [] => [[]]
      | g :: gs => if c = sep then [] :: g :: gs else (c :: g) :: gs

/-- Python `s.split(sep)` for a one-character separator. -/
def strSplit (s : String) (sep : Char) : List String :=
  (splitOnChar sep s.toList).map String.mk

/-- Rejoin with `:` (the tail of a capped `split(':', 2)`). -/
def joinWithColon : List (List Char) → List Char
  | [] => []
  | [x] => x
  | x :: xs => x ++ ':' :: joinWithColon xs

/-- Python `s.split(':', 2)`. -/
def splitColon2 (s : String) : List String :=
  match splitOnChar ':' s.toList with
  | [] => []
  | [a] => [String.mk a]
  | [a, b] => [String.mk a, String.mk b]
  | a :: b :: rest => [String.mk a, String.mk b, String.mk (joinWithColon rest)]

/-- Python `s.startswith(pre)`. -/
def strStartsWith (s pre : String) : Bool :=
  pre.toList.isPrefixOf s.toList

/-- `dict.get` over an association list of strings (later bindings win). -/
def dictGetS (l : List (String × String)) (k : String) : Option String :=
  l.reverse.lookup k

/-- The `param_docs` extraction loop (`agents/agent.py:45-53`): collect
`name ↦ text` from doc lines of the form `:param <name>: <text>`.  (When a
stripped `:param` line has no second token before the second colon the
Python code would raise `IndexError`; no docstring in the repository has
that shape, and the case is skipped here.) -/
def buildParamDocs (doc : String) : List (String × String) :=
  (strSplit doc '\n').foldl
    (fun acc line =>
      let ls := pyStrip line
      if strStartsWith ls ":param" then
        match splitColon2 ls with
        | [_, p1, p2] =>
            match (strSplit p1 ' ').get? 1 with
            | some pname => acc ++ [(pname, pyStrip p2)]
            | none => acc
        | _ => acc
      else acc)
    []

/-- Python `needle in hay` on strings: substring containment. -/
def strContains (hay needle : String) : Bool :=
  decide (needle.toList <:+: hay.toList)

/-- Code-point lexicographic `≤` on char lists: the order Python uses to
compare strings (and hence the key order of `list.sort` / the sort inside
`inspect.getmembers`). -/
def lexLeChars : List Char → List Char → Bool
  | [], _ => true
  | _ :: _, [] => false
  | c :: cs, d :: ds =>
      if c.toNat < d.toNat then true
      else if d.toNat < c.toNat then false
      else lexLeChars cs ds

/-- Python string `≤`. -/
def strLe (a b : String) : Bool := lexLeChars a.toList b.toList

/-- Stable insertion into a name-sorted member list. -/
def insertByName (x : PyMethod) : List PyMethod → List PyMethod
  | [] => [x]
  | y :: ys => if strLe x.name y.name then x :: y :: ys else y :: insertByName x ys

/-- Stable sort of members by name: extensionally the sort performed by
`inspect.getmembers` (`results.sort(key=lambda pair: pair[0])`). -/
def sortByName : List PyMethod → List PyMethod
  | [] => []
  | x :: xs => insertByName x (sortByName xs)

/-- Parameter kind inference (`agents/agent.py:62-69`): default `string`;
an annotation whose text contains `int` or `float` as a substring gives
`number`, otherwise one containing `bool` gives `boolean`. -/
def kindOfAnn : Option String → String
  | none => "string"
  | some a =>
      if strContains a "int" || strContains a "float" then "number"
      else if strContains a "bool" then "boolean"
      else "string"

/-- The body of the member loop (`agents/agent.py:42-89`): one tool
definition for one member — fallback description, per-parameter kind and
doc text, `required` exactly for the parameters with no default. -/
def toolDefOf (m : PyMethod) : ToolDef :=
  let doc := m.doc.getD "No description."
  let paramDocs := buildParamDocs doc
  let ps := m.params.filter (fun p => p.name ≠ "self")
  { name := m.name,
    description := (strSplit doc '\n').headD "",
    properties := ps.map (fun p =>
      { name := p.name, type := kindOfAnn p.annotation,
        description := (dictGetS paramDocs p.name).getD "" }),
    required := (ps.filter (fun p => !p.hasDefault)).map (fun p => p.name) }

/-- `LLMAgent._get_tool_definitions`: keep the coroutine members, sorted by
name (`inspect.getmembers` sorts its result), skip underscore-prefixed
names, and generate one definition per remaining member. -/
def buildCatalog (members : List PyMethod) : List ToolDef :=
  (((sortByName (members.filter (fun m => m.isCoroutine))).filter
      (fun m => !(strStartsWith m.name "_"))).map toolDefOf)

/-- The exposed handler names in insertion order of the handler set (the
order the methods appear in the class body of `RobotTools`). -/
def exposedNames (members : List PyMethod) : List String :=
  (((members.filter (fun m => m.isCoroutine)).filter
      (fun m => !(strStartsWith m.name "_"))).map (fun m => m.name))

/-- The members of a `RobotTools` instance as `inspect` sees them, in class
body order (`tools/robot_tools.py`).  `run_in_executor` is an `async def`
staticmethod, so the `iscoroutinefunction` predicate selects it too.
Docstrings are the `inspect.getdoc` cleaned texts. -/
def robotToolsMembers : List PyMethod :=
  [{ name := "__init__", isCoroutine := false, doc := none,
     params := [⟨"driver", some "IRobotDriver", false⟩,
                ⟨"kinematics", some "IKinematics", false⟩,
                ⟨"safety", some "ISafetyRules", false⟩,
                ⟨"servo", some "IServo", false⟩] },
   { name := "get_joint_positions", isCoroutine := true,
     doc := some "Gets the current angular positions of all robot joints.",
     params := [] },
   { name := "get_tcp_pose", isCoroutine := true,
     doc := some ("Gets the current Tool Center Point (TCP) pose relative to a coordinate frame.\n:param frame: The reference coordinate frame, defaults to \"base\"."),
     params := [⟨"frame", some "str", true⟩] },
   { name := "move_p2p", isCoroutine := true,
     doc := some ("Moves the robot to a target point in a point-to-point (P2P) manner.\n:param target: The destination, specified as either a Cartesian Pose or a set of joint angles (Joints).\n:param speed: The desired movement speed.\n:param accel: The desired movement acceleration.\n:param frame: The reference frame if the target is a Pose, defaults to \"base\"."),
     params := [⟨"target", some "Union[Pose, Joints]", false⟩,
                ⟨"speed", some "float", false⟩,
                ⟨"accel", some "float", false⟩,
                ⟨"frame", some "str", true⟩] },
   { name := "stop", isCoroutine := true,
     doc := some "Stops all robot motion immediately.",
     params := [] },
   { name := "set_gripper", isCoroutine := true,
     doc := some ("Controls the gripper.\n:param state: The desired state, either \"open\" or \"closed\".\n:param force: The grasping force to apply, if applicable."),
     params := [⟨"state", some "str", false⟩,
                ⟨"force", some "Optional[float]", true⟩] },
   { name := "set_speed_profile", isCoroutine := false, doc := none,
     params := [⟨"profile", none, false⟩] },
   { name := "run_fk", isCoroutine := true,
     doc := some "Runs forward kinematics to calculate a Pose from joint angles.",
     params := [⟨"joints", some "Joints", false⟩] },
   { name := "run_ik", isCoroutine := true,
     doc := some "Runs inverse kinematics to find joint solutions for a given Pose.",
     params := [⟨"pose", some "Pose", false⟩,
                ⟨"seed", some "Optional[Joints]", true⟩] },
   { name := "get_state", isCoroutine := true,
     doc := some "Retrieves the full current state of the robot (joints, pose, etc.).",
     params := [] },
   { name := "heartbeat", isCoroutine := false, doc := none, params := [] },
   { name := "get_limits", isCoroutine := false, doc := none, params := [] },
   { name := "shutdown", isCoroutine := true,
     doc := some ("Initiates the shutdown of the application. Call this when the user\x27s task is fully complete.\n:param reason: The reason for shutting down."),
     params := [⟨"reason", some "str", true⟩] },
   { name := "set_servo_angle", isCoroutine := true,
     doc := some ("Sets the angle of a single servo motor.\n:param angle: The desired angle for the servo, from 0 to 180 degrees."),
     params := [⟨"angle", some "int", false⟩] },
   { name := "run_in_executor", isCoroutine := true, doc := none,
     params := [⟨"func", none, false⟩, ⟨"args", none, false⟩] }]

/-- A skill-executor oracle whose result is an error envelope; used to
instantiate loop theorems at branches where no tool is ever executed. -/
def noExec : ToolCall → ExecOutcome :=
  fun _ => .res (.err ⟨"unused", "unused"⟩)

/-- Modelled from the spec (§4.1): the parameter kind the spec words
assign — `number` exactly when the declared type denotes an integer or
floating type, `boolean` for a boolean type, `string` otherwise.  Among
the annotation texts occurring on `RobotTools` parameters, the ones
denoting an integer or floating type are exactly `int`, `float` and
`Optional[float]`; none denotes a boolean; `Joints`, `Pose`,
`Union[Pose, Joints]`, `Optional[Joints]` and `str` denote dataclass,
union or string types. -/
def specKindOfAnn : Option String → String
  | some "int" => "number"
  | some "float" => "number"
  | some "Optional[float]" => "number"
  | _ => "string"

/-! ## Helper lemmas about the session loop -/

theorem stepOnce_err_eq (exec : ToolCall → ExecOutcome) (e : Error)
    (s : LoopState) :
    stepOnce exec (.err e) s =
      .ret { s with history := [] } [.spoke (.vstr (errNotice e.message))] := rfl

theorem stepOnce_final_text (exec : ToolCall → ExecOutcome) (s : LoopState)
    (m : AgentMessage) (c : String) (hc : m.content = some c) (hne : c ≠ "") :
    stepOnce exec (.ok m) s =
      .ret { s with history := s.history ++ [m] }
        [.spoke (.vstr (cleanTextForTTS c))] := by
  simp [stepOnce, isTruthyStr, hc, hne]

theorem stepOnce_shutdown_eq (exec : ToolCall → ExecOutcome) (s : LoopState)
    (m : AgentMessage) (tcs : List ToolCall) (tc0 : ToolCall)
    (hc : isTruthyStr m.content = false)
    (ht : m.tool_calls = some tcs)
    (hf : tcs.find? (fun tc => tc.name = "shutdown") = some tc0) :
    stepOnce exec (.ok m) s =
      .ret { history := s.history ++ [m], retries_left := s.retries_left,
             is_running := false }
        [.spoke ((dictGet tc0.args "reason").getD
          (.vstr defaultShutdownReason))] := by
  have hne : tcs ≠ [] := by
    intro h
    rw [h] at hf
    simp at hf
  simp [stepOnce, hc, ht, List.isEmpty_iff, hne, hf]

theorem stepOnce_dispatch_eq (exec : ToolCall → ExecOutcome) (s : LoopState)
    (m : AgentMessage) (tcs : List ToolCall)
    (hc : isTruthyStr m.content = false)
    (ht : m.tool_calls = some tcs)
    (hne : tcs ≠ [])
    (hsd : tcs.find? (fun tc => tc.name = "shutdown") = none) :
    stepOnce exec (.ok m) s =
      (if (tcs.map exec).any hasErr then
        .cont { history := s.history ++ [m] ++
                  List.zipWith toolResultMsg tcs (tcs.map exec),
                retries_left := s.retries_left - 1,
                is_running := s.is_running }
          ((tcs.map Event.execTC) ++
            (if s.retries_left - 1 = 0 then [.spoke (.vstr retryFailNotice)]
             else []))
       else
        .cont { history := s.history ++ [m] ++
                  List.zipWith toolResultMsg tcs (tcs.map exec),
                retries_left := s.retries_left,
                is_running := s.is_running }
          (tcs.map Event.execTC)) := by
  simp [stepOnce, hc, ht, List.isEmpty_iff, hne, hsd]

theorem zipWith_toolResultMsg_map (exec : ToolCall → ExecOutcome)
    (tcs : List ToolCall) :
    List.zipWith toolResultMsg tcs (tcs.map exec) =
      tcs.map (fun tc => toolResultMsg tc (exec tc)) := by
  induction tcs with
  | nil => rfl
  | cons tc rest ih => simp [ih]

theorem stepOnce_ret_retries (exec : ToolCall → ExecOutcome)
    (r : Result AgentMessage) (s s2 : LoopState) (evs : List Event)
    (h : stepOnce exec r s = .ret s2 evs) :
    s2.retries_left = s.retries_left := by
  cases r with
  | err e =>
      rw [stepOnce_err_eq] at h
      cases h
      rfl
  | ok m =>
      simp only [stepOnce] at h
      split at h
      · cases h; rfl
      · split at h
        · cases h; rfl
        · split at h
          · cases h; rfl
          · split at h <;> cases h

theorem stepOnce_cont_retries (exec : ToolCall → ExecOutcome)
    (r : Result AgentMessage) (s s2 : LoopState) (evs : List Event)
    (h : stepOnce exec r s = .cont s2 evs) :
    s2.retries_left = s.retries_left ∨
      s2.retries_left = s.retries_left - 1 := by
  cases r with
  | err e =>
      rw [stepOnce_err_eq] at h
      cases h
  | ok m =>
      simp only [stepOnce] at h
      split at h
      · cases h
      · split at h
        · cases h
        · split at h
          · cases h
          · split at h
            · cases h
              right
              rfl
            · cases h
              left
              rfl

theorem errSteps_le (exec : ToolCall → ExecOutcome)
    (script : List (Result AgentMessage)) (s : LoopState) :
    errSteps exec script s ≤ s.retries_left := by
  induction script generalizing s with
  | nil => simp [errSteps]
  | cons r rest ih =>
      simp only [errSteps]
      split
      · exact Nat.zero_le _
      · rename_i hr
        split
        · exact Nat.zero_le _
        · rename_i s2 evs hstep
          have hd := stepOnce_cont_retries exec r s s2 evs hstep
          have h2 := ih s2
          rcases hd with hd | hd <;> split <;> omega

theorem runLoop_retries (exec : ToolCall → ExecOutcome)
    (script : List (Result AgentMessage)) (s : LoopState) :
    (runLoop exec script s).1.retries_left =
      s.retries_left - errSteps exec script s := by
  induction script generalizing s with
  | nil => simp [runLoop, errSteps]
  | cons r rest ih =>
      simp only [runLoop, errSteps]
      split
      · simp
      · rename_i hr
        rcases hstep : stepOnce exec r s with ⟨s2, evs⟩ | ⟨s2, evs⟩
        · simp only [hstep]
          have := stepOnce_ret_retries exec r s s2 evs hstep
          omega
        · simp only [hstep]
          have hd := stepOnce_cont_retries exec r s s2 evs hstep
          have h2 := ih s2
          split <;> rcases hd with hd | hd <;> omega

/-- The tool calls dispatched along a trace, in order. -/
def dispatchedOf (evs : List Event) : List ToolCall :=
  evs.filterMap (fun ev =>
    match ev with
    | .execTC tc => some tc
    | .spoke _ => none)

theorem dispatchedOf_append (a b : List Event) :
    dispatchedOf (a ++ b) = dispatchedOf a ++ dispatchedOf b := by
  simp [dispatchedOf]

theorem dispatchedOf_execTC (tcs : List ToolCall) :
    dispatchedOf (tcs.map Event.execTC) = tcs := by
  induction tcs with
  | nil => rfl
  | cons tc rest ih => simp [dispatchedOf] at ih ⊢; exact ih

theorem dispatchedOf_retry_tail (c : Prop) [Decidable c] :
    dispatchedOf (if c then [Event.spoke (.vstr retryFailNotice)] else []) = [] := by
  split <;> rfl

theorem toolResultMsgs_ids (exec : ToolCall → ExecOutcome) (tcs : List ToolCall) :
    (tcs.map (fun tc => toolResultMsg tc (exec tc))).map (fun r => r.tool_call_id)
      = tcs.map (fun tc => some tc.id) := by
  simp [toolResultMsg, Function.comp]

theorem toolResultMsgs_contents (exec : ToolCall → ExecOutcome) (tcs : List ToolCall) :
    (tcs.map (fun tc => toolResultMsg tc (exec tc))).map (fun r => r.content)
      = tcs.map (fun tc => some (toolResultContent (exec tc))) := by
  simp [toolResultMsg, Function.comp]

/-- In a list whose image under `f` has no duplicates, exactly one element
agrees with a given member on `f`. -/
theorem length_filter_eq_one {α β : Type} [DecidableEq β] (f : α → β)
    (l : List α) (hnd : (l.map f).Nodup) (a : α) (ha : a ∈ l) :
    (l.filter (fun x => f x = f a)).length = 1 := by
  induction l with
  | nil => cases ha
  | cons b rest ih =>
      simp only [List.map_cons, List.nodup_cons] at hnd
      rcases List.mem_cons.mp ha with h | h
      · subst h
        have hrest : rest.filter (fun x => f x = f a) = [] := by
          refine List.filter_eq_nil_iff.mpr ?_
          intro x hx hfx
          have hfx2 : f x = f a := of_decide_eq_true hfx
          exact hnd.1 (hfx2 ▸ List.mem_map_of_mem f hx)
        rw [List.filter_cons]
        simp [hrest]
      · have hba : ¬ (f b = f a) := by
          intro hEq
          exact hnd.1 (hEq ▸ List.mem_map_of_mem f h)
        rw [List.filter_cons]
        simp [hba, ih hnd.2 h]

/-! ## Claim theorems -/

/-- C1: if the action batch of an assistant reply (a reply carrying no
final text, as every tool-call reply decoded by the inference step does)
contains the reserved `shutdown` action anywhere in the list, the loop
speaks that invocation's `reason` argument (or the default phrase), flips
the mode to its terminal non-running state, and returns; the speak is the
only emitted event — in particular no action of the batch is dispatched
and no tool-result message is appended, regardless of the termination
call's position. -/
theorem claim_C1_termination_precedence
    (exec : ToolCall → ExecOutcome) (s : LoopState) (m : AgentMessage)
    (tcs : List ToolCall) (tc0 : ToolCall)
    (hc : isTruthyStr m.content = false)
    (ht : m.tool_calls = some tcs)
    (hf : tcs.find? (fun tc => tc.name = "shutdown") = some tc0) :
    tc0 ∈ tcs ∧ tc0.name = "shutdown" ∧
    stepOnce exec (.ok m) s =
      .ret { history := s.history ++ [m], retries_left := s.retries_left,
             is_running := false }
        [.spoke ((dictGet tc0.args "reason").getD
          (.vstr defaultShutdownReason))] := by
  refine ⟨List.mem_of_find?_eq_some hf, ?_, stepOnce_shutdown_eq exec s m tcs tc0 hc ht hf⟩
  have := List.find?_some hf
  simpa using this

/-- Witness for C1 at a concrete batch in which the `shutdown` call comes
second, behind an ordinary action: only its reason is spoken, the mode
stops, nothing is dispatched. -/
theorem claim_C1_witness :
    stepOnce noExec
      (.ok { role := "assistant", content := some "",
             tool_calls := some [⟨"c1", "get_state", []⟩,
               ⟨"c2", "shutdown", [("reason", .vstr "Готово.")]⟩] })
      ⟨[], 3, true⟩ =
    .ret ⟨[{ role := "assistant", content := some "",
             tool_calls := some [⟨"c1", "get_state", []⟩,
               ⟨"c2", "shutdown", [("reason", .vstr "Готово.")]⟩] }], 3, false⟩
      [.spoke (.vstr "Готово.")] :=
  (claim_C1_termination_precedence noExec ⟨[], 3, true⟩
    { role := "assistant", content := some "",
      tool_calls := some [⟨"c1", "get_state", []⟩,
        ⟨"c2", "shutdown", [("reason", .vstr "Готово.")]⟩] }
    [⟨"c1", "get_state", []⟩, ⟨"c2", "shutdown", [("reason", .vstr "Готово.")]⟩]
    ⟨"c2", "shutdown", [("reason", .vstr "Готово.")]⟩
    rfl rfl rfl).2.2

/-- C3: when the inference step returns `Err` on the first call of a user
turn, the loop emits exactly one error notice to the output sink and
returns; no event of the run is a tool dispatch, so the action dispatcher
is never invoked. -/
theorem claim_C3_inference_error_first_call
    (exec : ToolCall → ExecOutcome) (script : List (Result AgentMessage))
    (e : Error) (h0 : List AgentMessage) (req : String) (n : Nat) (b : Bool)
    (hn : 0 < n) :
    runAgentLoop exec (Result.err e :: script) h0 n req b =
      ({ history := [], retries_left := n, is_running := b },
       [.spoke (.vstr (errNotice e.message))]) ∧
    ∀ tc : ToolCall,
      Event.execTC tc ∉ (runAgentLoop exec (Result.err e :: script) h0 n req b).2 := by
  have hmain : runAgentLoop exec (Result.err e :: script) h0 n req b =
      ({ history := [], retries_left := n, is_running := b },
       [.spoke (.vstr (errNotice e.message))]) := by
    simp only [runAgentLoop, runLoop]
    rw [if_neg (by omega)]
    rw [stepOnce_err_eq]
  refine ⟨hmain, ?_⟩
  intro tc
  rw [hmain]
  simp

/-- Witness for C3 with the default retry budget. -/
theorem claim_C3_witness :
    runAgentLoop noExec [Result.err ⟨"llm_error", "LLM API call failed: timeout"⟩]
        [] 3 "Привет" true =
      ({ history := [], retries_left := 3, is_running := true },
       [.spoke (.vstr "Ошибка агента: LLM API call failed: timeout")]) :=
  (claim_C3_inference_error_first_call noExec []
    ⟨"llm_error", "LLM API call failed: timeout"⟩ [] "Привет" 3 true
    (by decide)).1

/-- C5 (code_bug evidence): at the exact input of the repository test
`test_agent_error_handling` — empty prior history, one user request, the
agent answering with `Err("fake_agent_error", "I have malfunctioned.")` —
the loop clears the history (`modes/llm_mode.py:61`), leaving it empty,
whereas the test asserts the history still holds the single user message
(length 1). -/
theorem claim_C5_code_clears_history :
    runAgentLoop noExec
        [Result.err ⟨"fake_agent_error", "I have malfunctioned."⟩]
        [] 1 "What if you fail?" true =
      ({ history := [], retries_left := 1, is_running := true },
       [.spoke (.vstr "Ошибка агента: I have malfunctioned.")]) ∧
    (runAgentLoop noExec
        [Result.err ⟨"fake_agent_error", "I have malfunctioned."⟩]
        [] 1 "What if you fail?" true).1.history.length ≠ 1 :=
  ⟨rfl, by decide⟩

/-- C9 (counterexample): the termination-reason speak path emits the
reason text verbatim; at a reason containing `*` the spoken text is not
in the sanitized character set — `cleanTextForTTS` would have removed the
asterisks — so this speak path does not sanitize before speaking. -/
theorem claim_C9_counterexample :
    stepOnce noExec
      (.ok { role := "assistant",
             tool_calls := some [⟨"c1", "shutdown",
               [("reason", .vstr "Завершаю работу *немедленно*")]⟩] })
      ⟨[], 3, true⟩ =
    .ret ⟨[{ role := "assistant",
             tool_calls := some [⟨"c1", "shutdown",
               [("reason", .vstr "Завершаю работу *немедленно*")]⟩] }], 3, false⟩
      [.spoke (.vstr "Завершаю работу *немедленно*")] ∧
    cleanTextForTTS "Завершаю работу *немедленно*" ≠
      "Завершаю работу *немедленно*" :=
  ⟨rfl, by decide⟩

/-- C9 (amended): only the final-answer speak path sanitizes its text with
the constrained-character-set cleaner before speaking; the agent-error
notice path (and likewise the protocol-violation, termination-reason and
retry-exhaustion paths, see the counterexample) emits its text verbatim. -/
theorem claim_C9_sanitization_paths :
    (∀ (exec : ToolCall → ExecOutcome) (s : LoopState) (m : AgentMessage)
        (c : String), m.content = some c → c ≠ "" →
      stepOnce exec (.ok m) s =
        .ret { s with history := s.history ++ [m] }
          [.spoke (.vstr (cleanTextForTTS c))]) ∧
    (∀ (exec : ToolCall → ExecOutcome) (s : LoopState) (e : Error),
      stepOnce exec (.err e) s =
        .ret { s with history := [] }
          [.spoke (.vstr (errNotice e.message))]) :=
  ⟨fun exec s m c hc hne => stepOnce_final_text exec s m c hc hne,
   fun exec s e => stepOnce_err_eq exec e s⟩

/-- Witness for the amended C9: a concrete final answer is spoken in its
sanitized form (the `;)` is stripped). -/
theorem claim_C9_witness :
    stepOnce noExec
      (.ok { role := "assistant", content := some "Привет! ;)" })
      ⟨[], 3, true⟩ =
    .ret ⟨[{ role := "assistant", content := some "Привет! ;)" }], 3, true⟩
      [.spoke (.vstr "Привет!")] :=
  claim_C9_sanitization_paths.1 noExec ⟨[], 3, true⟩
    { role := "assistant", content := some "Привет! ;)" } "Привет! ;)" rfl
    (by decide)

/-- C10: (a) an assistant message carrying both non-empty text and tool
calls makes the loop speak the (sanitized) text and return the turn —
none of the calls, a termination call included, is dispatched, appended
as a tool result, or interpreted (the mode keeps running, history gains
only the assistant message); (b) the inference-step decoder produces
`content = ""` (the empty string, not an absent field) whenever the reply
contains tool calls, so branch (a) is unreachable for messages it
decodes. -/
theorem claim_C10_text_wins_over_calls :
    (∀ (exec : ToolCall → ExecOutcome) (s : LoopState) (m : AgentMessage)
        (c : String) (tcs : List ToolCall),
      m.content = some c → c ≠ "" → m.tool_calls = some tcs →
      stepOnce exec (.ok m) s =
        .ret { s with history := s.history ++ [m] }
          [.spoke (.vstr (cleanTextForTTS c))]) ∧
    (∀ (parseArgs : String → Option (List (String × PyValue)))
        (rm : ResponseMessage) (tcs : List RawToolCall),
      rm.tool_calls = some tcs → tcs ≠ [] →
      decodeResponse parseArgs rm =
        .ok { role := "assistant", content := some "",
              tool_calls := some (tcs.map (decodeToolCall parseArgs)) }) := by
  constructor
  · intro exec s m c tcs hc hne _ht
    exact stepOnce_final_text exec s m c hc hne
  · intro parseArgs rm tcs ht hne
    simp [decodeResponse, ht, List.isEmpty_iff, hne]

/-- Witness for C10: a message with final text and a co-batched `shutdown`
call speaks the text and leaves the mode running; a decoded reply with one
raw tool call carries the empty-string content. -/
theorem claim_C10_witness :
    stepOnce noExec
      (.ok { role := "assistant", content := some "Готово",
             tool_calls := some [⟨"c1", "shutdown", []⟩] })
      ⟨[], 3, true⟩ =
    .ret ⟨[{ role := "assistant", content := some "Готово",
             tool_calls := some [⟨"c1", "shutdown", []⟩] }], 3, true⟩
      [.spoke (.vstr "Готово")] ∧
    decodeResponse (fun _ => none)
      { content := none, tool_calls := some [⟨"id1", ⟨"get_state", ""⟩⟩] } =
      .ok { role := "assistant", content := some "",
            tool_calls := some [⟨"id1", "get_state", []⟩] } :=
  ⟨claim_C10_text_wins_over_calls.1 noExec ⟨[], 3, true⟩
    { role := "assistant", content := some "Готово",
      tool_calls := some [⟨"c1", "shutdown", []⟩] } "Готово"
    [⟨"c1", "shutdown", []⟩] rfl (by decide) rfl,
   claim_C10_text_wins_over_calls.2 (fun _ => none)
    { content := none, tool_calls := some [⟨"id1", ⟨"get_state", ""⟩⟩] }
    [⟨"id1", ⟨"get_state", ""⟩⟩] rfl (by simp)⟩

/-- C2: a dispatched batch produces tool-result messages appended in batch
order: the result list is index-aligned (its `tool_call_id` projection is
exactly the batch id list, its `content` projection the per-invocation
outcome rendering), the dispatched trace equals the batch, and when the
batch ids are pairwise distinct every id appears in exactly one appended
result and determines that result's outcome. -/
theorem claim_C2_dispatch_alignment
    (exec : ToolCall → ExecOutcome) (s : LoopState) (m : AgentMessage)
    (tcs : List ToolCall)
    (hc : isTruthyStr m.content = false)
    (ht : m.tool_calls = some tcs)
    (hne : tcs ≠ [])
    (hsd : tcs.find? (fun tc => tc.name = "shutdown") = none) :
    ∃ s2 evs, stepOnce exec (.ok m) s = .cont s2 evs ∧
      s2.history = s.history ++ [m] ++
        tcs.map (fun tc => toolResultMsg tc (exec tc)) ∧
      (tcs.map (fun tc => toolResultMsg tc (exec tc))).map
          (fun r => r.tool_call_id) = tcs.map (fun tc => some tc.id) ∧
      (tcs.map (fun tc => toolResultMsg tc (exec tc))).map
          (fun r => r.content) =
        tcs.map (fun tc => some (toolResultContent (exec tc))) ∧
      dispatchedOf evs = tcs ∧
      ((tcs.map (fun tc => tc.id)).Nodup →
        (∀ tc ∈ tcs,
          ((tcs.map (fun tc2 => toolResultMsg tc2 (exec tc2))).filter
            (fun r => r.tool_call_id = some tc.id)).length = 1) ∧
        (∀ tc ∈ tcs, ∀ r ∈ tcs.map (fun tc2 => toolResultMsg tc2 (exec tc2)),
          r.tool_call_id = some tc.id →
          r.content = some (toolResultContent (exec tc)))) := by
  have hcount : (tcs.map (fun tc => tc.id)).Nodup →
      (∀ tc ∈ tcs,
        ((tcs.map (fun tc2 => toolResultMsg tc2 (exec tc2))).filter
          (fun r => r.tool_call_id = some tc.id)).length = 1) ∧
      (∀ tc ∈ tcs, ∀ r ∈ tcs.map (fun tc2 => toolResultMsg tc2 (exec tc2)),
        r.tool_call_id = some tc.id →
        r.content = some (toolResultContent (exec tc))) := by
    intro hnd
    constructor
    · intro tc htc
      have hnd2 : (tcs.map (fun tc2 => (toolResultMsg tc2 (exec tc2)).tool_call_id)).Nodup := by
        have : (tcs.map (fun tc2 => (toolResultMsg tc2 (exec tc2)).tool_call_id))
            = (tcs.map (fun tc2 => tc2.id)).map (fun i => some i) := by
          simp [toolResultMsg, Function.comp]
        rw [this]
        exact hnd.map (fun a b h => Option.some_injective _ h)
      have := length_filter_eq_one (fun r => r.tool_call_id)
        (tcs.map (fun tc2 => toolResultMsg tc2 (exec tc2)))
        (by simpa [List.map_map] using hnd2)
        (toolResultMsg tc (exec tc)) (List.mem_map_of_mem _ htc)
      simpa [toolResultMsg] using this
    · intro tc htc r hr hid
      rcases List.mem_map.mp hr with ⟨tc2, htc2, rfl⟩
      have hid2 : tc2.id = tc.id := by
        simpa [toolResultMsg] using hid
      have : tc2 = tc :=
        List.inj_on_of_nodup_map hnd htc2 htc hid2
      rw [this]
      rfl
  rw [stepOnce_dispatch_eq exec s m tcs hc ht hne hsd]
  by_cases hAny : (tcs.map exec).any hasErr
  · rw [if_pos hAny]
    refine ⟨_, _, rfl, ?_, toolResultMsgs_ids exec tcs,
      toolResultMsgs_contents exec tcs, ?_, hcount⟩
    · simp [zipWith_toolResultMsg_map]
    · rw [dispatchedOf_append, dispatchedOf_execTC, dispatchedOf_retry_tail]
      simp
  · rw [if_neg hAny]
    exact ⟨_, _, rfl, by simp [zipWith_toolResultMsg_map],
      toolResultMsgs_ids exec tcs, toolResultMsgs_contents exec tcs,
      dispatchedOf_execTC tcs, hcount⟩

/-- Witness for C2: a two-call batch with distinct ids yields two tool
results in batch order, both rendered from the executor outcome, each id
matched exactly once. -/
theorem claim_C2_witness :
    ∃ s2 evs,
      stepOnce noExec
        (.ok { role := "assistant", content := some "",
               tool_calls := some [⟨"a1", "run_fk", []⟩, ⟨"a2", "stop", []⟩] })
        ⟨[], 3, true⟩ = .cont s2 evs ∧
      s2.history =
        [{ role := "assistant", content := some "",
           tool_calls := some [⟨"a1", "run_fk", []⟩, ⟨"a2", "stop", []⟩] },
         { role := "tool", content := some "Error: unused",
           tool_call_id := some "a1" },
         { role := "tool", content := some "Error: unused",
           tool_call_id := some "a2" }] ∧
      dispatchedOf evs = [⟨"a1", "run_fk", []⟩, ⟨"a2", "stop", []⟩] ∧
      (([⟨"a1", "run_fk", []⟩, ⟨"a2", "stop", []⟩].map
          (fun tc2 : ToolCall => toolResultMsg tc2 (noExec tc2))).filter
        (fun r => r.tool_call_id = some "a1")).length = 1 := by
  obtain ⟨s2, evs, h1, h2, _h3, _h4, h5, h6⟩ :=
    claim_C2_dispatch_alignment noExec ⟨[], 3, true⟩
      { role := "assistant", content := some "",
        tool_calls := some [⟨"a1", "run_fk", []⟩, ⟨"a2", "stop", []⟩] }
      [⟨"a1", "run_fk", []⟩, ⟨"a2", "stop", []⟩]
      rfl rfl (List.cons_ne_nil _ _) rfl
  refine ⟨s2, evs, h1, ?_, h5, ?_⟩
  · rw [h2]; rfl
  · exact (h6 (by decide)).1 ⟨"a1", "run_fk", []⟩ (by simp)

/-- C4: in the bounded-retry loop, (i) a dispatched batch with at least one
failed outcome decrements the retry budget by exactly one and an all-`Ok`
batch leaves it unchanged, with the retry-exhaustion notice spoken exactly
when the budget hits zero; (ii) a loop at budget zero performs no further
step; (iii) the number of budget-decrementing (error-bearing) steps of any
run is bounded by the initial budget — hence by `max_retries` per user
turn — and the final budget is the initial one minus that count. -/
theorem claim_C4_bounded_retries :
    (∀ (exec : ToolCall → ExecOutcome) (s : LoopState) (m : AgentMessage)
        (tcs : List ToolCall),
      isTruthyStr m.content = false → m.tool_calls = some tcs → tcs ≠ [] →
      tcs.find? (fun tc => tc.name = "shutdown") = none →
      ∃ s2 evs, stepOnce exec (.ok m) s = .cont s2 evs ∧
        s2.retries_left =
          (if (tcs.map exec).any hasErr then s.retries_left - 1
           else s.retries_left) ∧
        ((tcs.map exec).any hasErr = true → s.retries_left - 1 = 0 →
          Event.spoke (.vstr retryFailNotice) ∈ evs)) ∧
    (∀ (exec : ToolCall → ExecOutcome) (r : Result AgentMessage)
        (rest : List (Result AgentMessage)) (s : LoopState),
      s.retries_left = 0 → runLoop exec (r :: rest) s = (s, [])) ∧
    (∀ (exec : ToolCall → ExecOutcome) (script : List (Result AgentMessage))
        (s : LoopState),
      errSteps exec script s ≤ s.retries_left ∧
      (runLoop exec script s).1.retries_left =
        s.retries_left - errSteps exec script s) := by
  refine ⟨?_, ?_, fun exec script s => ⟨errSteps_le exec script s,
    runLoop_retries exec script s⟩⟩
  · intro exec s m tcs hc ht hne hsd
    rw [stepOnce_dispatch_eq exec s m tcs hc ht hne hsd]
    by_cases hAny : (tcs.map exec).any hasErr
    · rw [if_pos hAny]
      refine ⟨_, _, rfl, by simp [hAny], ?_⟩
      intro _ hz
      rw [if_pos hz]
      simp
    · rw [if_neg hAny]
      exact ⟨_, _, rfl, by simp [hAny], fun hcontra _ => absurd hcontra (by simpa using hAny)⟩
  · intro exec r rest s hz
    simp [runLoop, hz]

/-- Witness for C4: with a budget of one retry, a batch whose single
outcome is an error decrements the budget to zero and speaks the
retry-exhaustion notice. -/
theorem claim_C4_witness :
    ∃ s2 evs,
      stepOnce noExec
        (.ok { role := "assistant", content := some "",
               tool_calls := some [⟨"c1", "set_servo_angle",
                 [("angle", .vint 999)]⟩] })
        ⟨[], 1, true⟩ = .cont s2 evs ∧
      s2.retries_left = 0 ∧
      Event.spoke (.vstr retryFailNotice) ∈ evs := by
  obtain ⟨s2, evs, h1, h2, h3⟩ :=
    claim_C4_bounded_retries.1 noExec ⟨[], 1, true⟩
      { role := "assistant", content := some "",
        tool_calls := some [⟨"c1", "set_servo_angle", [("angle", .vint 999)]⟩] }
      [⟨"c1", "set_servo_angle", [("angle", .vint 999)]⟩]
      rfl rfl (List.cons_ne_nil _ _) rfl
  refine ⟨s2, evs, h1, ?_, h3 rfl rfl⟩
  rw [h2]
  rfl

/-- C6 (counterexample): the catalog built from the `RobotTools` handler
set does not list the definitions in insertion order of the handler set:
`inspect.getmembers` sorts members by name, so `get_state` (defined late
in the class body) precedes `get_tcp_pose` and `move_p2p` in the output,
while insertion order has `get_tcp_pose` second. -/
theorem claim_C6_counterexample :
    (buildCatalog robotToolsMembers).map (fun d => d.name) ≠
      exposedNames robotToolsMembers := by
  decide

/-- C6 (amended): building the action catalog from a fixed handler set is
deterministic and idempotent — two builds yield identical definitions —
and the definitions appear in ascending lexicographic order of handler
name (the order `inspect.getmembers` returns), not in insertion order. -/
theorem claim_C6_catalog_deterministic_sorted :
    (∀ ms : List PyMethod, buildCatalog ms = buildCatalog ms) ∧
    buildCatalog robotToolsMembers = buildCatalog robotToolsMembers ∧
    (buildCatalog robotToolsMembers).map (fun d => d.name) =
      ["get_joint_positions", "get_state", "get_tcp_pose", "move_p2p",
       "run_fk", "run_ik", "run_in_executor", "set_gripper",
       "set_servo_angle", "shutdown", "stop"] ∧
    List.Pairwise (fun a b : String => strLe a b = true)
      ((buildCatalog robotToolsMembers).map (fun d => d.name)) :=
  ⟨fun _ => rfl, rfl, by decide, by decide⟩

/-- C7 (counterexample): the catalog builder classifies the `joints`
parameter of `run_fk` as kind `number`, although its declared type
`Joints` (the joint-angles dataclass) denotes neither an integer nor a
floating type — the substring test fires on the `int` inside `Joints` —
so "number exactly for integer/floating types" fails. -/
theorem claim_C7_counterexample :
    (buildCatalog robotToolsMembers).find? (fun d => d.name = "run_fk") =
      some { name := "run_fk",
             description :=
               "Runs forward kinematics to calculate a Pose from joint angles.",
             properties := [{ name := "joints", type := "number",
                              description := "" }],
             required := ["joints"] } ∧
    kindOfAnn (some "Joints") = "number" ∧
    specKindOfAnn (some "Joints") = "string" ∧
    specKindOfAnn (some "Joints") ≠ kindOfAnn (some "Joints") :=
  ⟨by decide, rfl, rfl, by decide⟩

/-- C7 (amended): the inferred kind is `number` exactly when the
annotation text contains `int` or `float` as a substring (which also
captures class types such as `Joints` or `Union[Pose, Joints]`),
`boolean` when it contains `bool` but neither `int` nor `float`, and
`string` otherwise (unannotated parameters included); and a parameter is
listed as required exactly when it has no default value. -/
theorem claim_C7_kind_inference_required :
    (∀ a : String, kindOfAnn (some a) =
      (if strContains a "int" || strContains a "float" then "number"
       else if strContains a "bool" then "boolean" else "string")) ∧
    kindOfAnn none = "string" ∧
    (∀ m : PyMethod, (m.params.map (fun p => p.name)).Nodup →
      ∀ p ∈ m.params, p.name ≠ "self" →
        (∃ tp ∈ (toolDefOf m).properties,
          tp.name = p.name ∧ tp.type = kindOfAnn p.annotation) ∧
        (p.name ∈ (toolDefOf m).required ↔ p.hasDefault = false)) := by
  refine ⟨fun a => rfl, rfl, ?_⟩
  intro m hnd p hp hself
  have hps : p ∈ m.params.filter (fun q => q.name ≠ "self") :=
    List.mem_filter.mpr ⟨hp, by simp [hself]⟩
  constructor
  · refine ⟨_, List.mem_map_of_mem _ hps, rfl, rfl⟩
  · simp only [toolDefOf]
    constructor
    · intro hmem
      rcases List.mem_map.mp hmem with ⟨q, hq, hqname⟩
      have hqf := List.mem_filter.mp hq
      have hq2 := (List.mem_filter.mp hqf.1).1
      have : q = p := List.inj_on_of_nodup_map hnd hq2 hp hqname
      subst this
      simpa using hqf.2
    · intro hdef
      refine List.mem_map_of_mem _ (List.mem_filter.mpr ⟨hps, ?_⟩)
      simp [hdef]

/-- Witness for the amended C7 at the `move_p2p` handler: its `speed`
parameter (annotation `float`, no default) appears with kind `number` and
is required; its `frame` parameter (annotation `str`, with default) is
not required. -/
theorem claim_C7_witness :
    ((⟨"speed", some "float", false⟩ : PyParam) ∈
        (robotToolsMembers.get ⟨3, by decide⟩).params ∧
      (∃ tp ∈ (toolDefOf (robotToolsMembers.get ⟨3, by decide⟩)).properties,
        tp.name = "speed" ∧ tp.type = kindOfAnn (some "float")) ∧
      ("speed" ∈ (toolDefOf (robotToolsMembers.get ⟨3, by decide⟩)).required ↔
        (false : Bool) = false)) ∧
    ("frame" ∈ (toolDefOf (robotToolsMembers.get ⟨3, by decide⟩)).required ↔
      (true : Bool) = false) := by
  have h1 := (claim_C7_kind_inference_required.2.2
    (robotToolsMembers.get ⟨3, by decide⟩) (by decide)
    ⟨"speed", some "float", false⟩ (by decide) (by decide))
  have h2 := (claim_C7_kind_inference_required.2.2
    (robotToolsMembers.get ⟨3, by decide⟩) (by decide)
    ⟨"frame", some "str", true⟩ (by decide) (by decide))
  exact ⟨⟨by decide, h1.1, h1.2⟩, h2.2⟩

/-- C8: an invocation of `set_servo_angle` with the out-of-range angle 999
(allowed range 0–180) is rejected before the servo is commanded — the
hardware state is returned unchanged for every servo behaviour — with
exactly `Err(invalid_angle, "Angle must be between 0 and 180.")`, both at
the tool itself and through the skill-executor dispatch; and the session
loop appends for it a tool-result message whose text is exactly
`Error: Angle must be between 0 and 180.`, which is part of the history
passed to the next inference call. -/
theorem claim_C8_out_of_range_angle (α : Type) (servo : Int → α → Bool × α)
    (o : OtherSkills α) (w : α) (s : LoopState) :
    set_servo_angle servo (.vint 999) w =
      (.err ⟨"invalid_angle", "Angle must be between 0 and 180."⟩, w) ∧
    executeToolCall (buildSkillMap o servo)
        ⟨"call_1", "set_servo_angle", [("angle", .vint 999)]⟩ w =
      (.err ⟨"invalid_angle", "Angle must be between 0 and 180."⟩, w) ∧
    ∃ s2 evs,
      stepOnce
        (fun tc => .res (executeToolCall (buildSkillMap o servo) tc w).1)
        (.ok { role := "assistant", content := some "",
               tool_calls := some
                 [⟨"call_1", "set_servo_angle", [("angle", .vint 999)]⟩] }) s
        = .cont s2 evs ∧
      s2.history = (s.history ++
        [{ role := "assistant", content := some "",
           tool_calls := some
             [⟨"call_1", "set_servo_angle", [("angle", .vint 999)]⟩] }]) ++
        [{ role := "tool",
           content := some "Error: Angle must be between 0 and 180.",
           tool_call_id := some "call_1" }] := by
  exact ⟨rfl, rfl, _, _, rfl, rfl⟩

end AIRobot
